import Mathlib

/- Shallow embedding of the hydroDL2 HBV source files
   `src/hydroDL2/models/hbv/hbv_adj.py` and `src/hydroDL2/models/hbv/hbv_1_1p.py`.

   Torch tensors are modelled as index functions and float scalars as rationals.
   External library primitives that are not part of the two source files
   (`torch.linalg.solve`, `torch.sigmoid`, `torch.bernoulli`, the `**` power
   operator on tensors, `batchJacobian`, `UH_gamma`/`UH_conv`,
   `change_param_range`) are modelled either as explicit function parameters
   (oracles) of the definitions that use them, or, where the spec describes
   them, as definitions marked "Modelled from the spec". -/

/-- Scalar value of a torch tensor entry: `some q` is a finite float (modelled
as a rational); `none` stands for a non-finite value (NaN or Inf), which the
source code detects with `torch.isnan`/`torch.isinf`.  Arithmetic propagates
non-finite values; ordering comparisons against a non-finite value are false,
as they are for NaN in Python/IEEE. -/
abbrev FV := Option ℚ

/-- Addition of tensor scalars (non-finite propagating). -/
def fadd : FV → FV → FV
  | some a, some b => some (a + b)
  | _, _ => none

/-- Subtraction of tensor scalars (non-finite propagating). -/
def fsub : FV → FV → FV
  | some a, some b => some (a - b)
  | _, _ => none

/-- Multiplication of tensor scalars (non-finite propagating). -/
def fmul : FV → FV → FV
  | some a, some b => some (a * b)
  | _, _ => none

/-- Division of tensor scalars; a zero denominator produces a non-finite
value (`Inf` or `NaN` in the floating-point source). -/
def fdiv : FV → FV → FV
  | some a, some b => if b = 0 then none else some (a / b)
  | _, _ => none

/-- Absolute value of a tensor scalar. -/
def fabs : FV → FV
  | some a => some |a|
  | none => none

/-- Maximum of two tensor scalars; `torch.max` returns NaN when an operand is
NaN, hence the non-finite propagation. -/
def fmax : FV → FV → FV
  | some a, some b => some (max a b)
  | _, _ => none

/-- Strict greater-than (`a > b`) on tensor scalars; any comparison involving
a non-finite (NaN-like) value is false. -/
def fgt : FV → FV → Bool
  | some a, some b => decide (b < a)
  | _, _ => false

/-- Batched state vector, shape `[B, n]` (batch `B` = basins times ensemble
members, `n` = number of state variables). -/
abbrev BVec (B n : ℕ) := Fin B → Fin n → FV

/-- Batched matrix, shape `[B, n, m]`. -/
abbrev BMat (B n m : ℕ) := Fin B → Fin n → Fin m → FV

/-- Infinity norm along the state dimension:
`torch.linalg.norm(gg, float('inf'), dim=[1])` applied to one batch element. -/
def vnormInf {n : ℕ} (v : Fin n → FV) : FV :=
  (List.finRange n).foldr (fun i acc => fmax (fabs (v i)) acc) (some 0)

/-- Maximum over the batch dimension: `torch.max(resnorm)`. -/
def bmax {B : ℕ} (r : Fin B → FV) : FV :=
  (List.finRange B).foldr (fun b acc => fmax (r b) acc) (some 0)

/-- Whether a batched matrix has some entry failing
`torch.isnan(M).any() or torch.isinf(M).any()`. -/
def hasNonFinite {B n m : ℕ} (M : BMat B n m) : Bool :=
  decide (∃ b i j, M b i j = none)

/-- Everything `NewtonSolve.forward` (hbv_adj.py lines 376-474) closes over:
the residual function `G` passed in by the caller, the inputs `p`, `p2`, `t`,
and the external primitives.  `Gfun` merges the two Python call arities
`G(x, p, t, auxG)` / `G(x, p, p2, t, auxG)` into one function taking the
optional `p2`; `auxG` is threaded untouched by the solver so it is absorbed
into `Gfun`.  `jacX`, `jacP`, `jacP2` are oracles for the repository module
`hydroDL2.core.calc.batchJacobian` (not under src/). Modelled from the spec:
"Batched Jacobian via automatic differentiation" of the residual with respect
to the state or the parameter group, evaluated at the current iterate `x`
(with `p`, `p2`, `t` fixed by this context).  `msolve` is an oracle for the
external `matrixSolve = torch.linalg.solve`.  In the only use of
`NewtonSolve` in the source (`MOL.nsteps_pDyn`), the second input `p2` is the
previous state `xt`, so `p2` is state-shaped (`BVec B n`). -/
structure NewtonCtx (B n mp : ℕ) where
  Gfun : BVec B n → (Fin B → Fin mp → FV) → Option (BVec B n) → ℕ → BVec B n
  jacX : BVec B n → BMat B n n
  jacP : BVec B n → BMat B n mp
  jacP2 : BVec B n → BMat B n n
  msolve : BMat B n n → BVec B n → BVec B n
  p : Fin B → Fin mp → FV
  p2 : Option (BVec B n)
  t : ℕ

/-- `max_iter = 3` from `NewtonSolve.forward` (hbv_adj.py line 384). -/
def max_iter : ℕ := 3

/-- `gtol = 1e-3` from `NewtonSolve.forward` (hbv_adj.py line 384). -/
def gtol : FV := some (1 / 1000)

/-- The Python locals live across iterations of the Newton `while` loop:
current iterate `x`, residual `gg`, residual norms `resnorm` (current) and
`resnorm0` (previous), and the state Jacobian `dGdx`. -/
structure NewtonLoopState (B n : ℕ) where
  x : BVec B n
  gg : BVec B n
  resnorm : Fin B → FV
  resnorm0 : Fin B → FV
  dGdx : BMat B n n

/-- The Jacobian-recompute condition `torch.max(resnorm/resnorm0) > 0.2`
(hbv_adj.py line 410). -/
def jacRecompCond {B n : ℕ} (st : NewtonLoopState B n) : Bool :=
  fgt (bmax (fun b => fdiv (st.resnorm b) (st.resnorm0 b))) (some (1 / 5))

/-- The `while` guard `(torch.max(resnorm) > gtol) and i <= max_iter`
(hbv_adj.py line 408): global maximum over the whole batch, plus the
iteration-counter cap. -/
def newtonGuard {B n : ℕ} (st : NewtonLoopState B n) (i : ℕ) : Bool :=
  fgt (bmax st.resnorm) gtol && decide (i ≤ max_iter)

/-- One iteration of the Newton `while` body (hbv_adj.py lines 409-445).
If the recompute condition holds, the residual and the state Jacobian are
re-evaluated at the current iterate and the Jacobian is checked for
NaN/Inf (raising `RuntimeError` otherwise); else the stored `dGdx` (and the
residual `gg` computed at the end of the previous iteration) are reused.
Then `dx = matrixSolve(dGdx, gg)`, `x = x - dx`, the residual is re-evaluated
at the new iterate for the whole batch, and the norms are shifted
(`resnorm0 = resnorm; resnorm = norm(gg)`).  The scalar branch
`dGdx.ndim == gg.ndim` of the source cannot arise here because the embedding
fixes the tensor ranks to the batched-matrix case used by this model. -/
def newtonBody {B n mp : ℕ} (c : NewtonCtx B n mp) (st : NewtonLoopState B n) :
    Except String (NewtonLoopState B n) :=
  if jacRecompCond st then
    let gg := c.Gfun st.x c.p c.p2 c.t
    let dGdx := c.jacX st.x
    if hasNonFinite dGdx then
      Except.error "Jacobian matrix is NaN"
    else
      let dx := c.msolve dGdx gg
      let x := fun b i => fsub (st.x b i) (dx b i)
      let gg2 := c.Gfun x c.p c.p2 c.t
      Except.ok ⟨x, gg2, fun b => vnormInf (gg2 b), st.resnorm, dGdx⟩
  else
    let dx := c.msolve st.dGdx st.gg
    let x := fun b i => fsub (st.x b i) (dx b i)
    let gg2 := c.Gfun x c.p c.p2 c.t
    Except.ok ⟨x, gg2, fun b => vnormInf (gg2 b), st.resnorm, st.dGdx⟩

/-- The Newton `while` loop, recursing on the remaining iteration budget.
The guard `i <= max_iter` bounds the number of body executions by
`max_iter + 1 - i`, which is taken as structural fuel; `newtonLoop` below
supplies exactly that much fuel, so the fuel-0 case is reached only when the
guard is false (see `newtonLoop_unfold_eq`). -/
def newtonLoopAux {B n mp : ℕ} (c : NewtonCtx B n mp) :
    ℕ → NewtonLoopState B n → ℕ → Except String (NewtonLoopState B n × ℕ)
  | 0, st, i => Except.ok (st, i)
  | fuel + 1, st, i =>
    if newtonGuard st i then
      match newtonBody c st with
      | Except.error e => Except.error e
      | Except.ok st' => newtonLoopAux c fuel st' (i + 1)
    else
      Except.ok (st, i)

/-- The Newton `while` loop of `NewtonSolve.forward`, started at counter `i`;
returns the final loop state together with the final value of the counter. -/
def newtonLoop {B n mp : ℕ} (c : NewtonCtx B n mp) (st : NewtonLoopState B n)
    (i : ℕ) : Except String (NewtonLoopState B n × ℕ) :=
  newtonLoopAux c (max_iter + 1 - i) st i

/-- Number of loop iterations reported by a completed Newton loop (0 for an
aborted one). -/
def loopIters {B n : ℕ} : Except String (NewtonLoopState B n × ℕ) → ℕ
  | Except.ok r => r.2
  | Except.error _ => 0

/-- The tensors retained by `ctx.save_for_backward(dGdp, dGdp2, dGdx)` at the
exit of `NewtonSolve.forward` (hbv_adj.py line 470). -/
structure NewtonSaved (B n mp : ℕ) where
  dGdp : BMat B n mp
  dGdp2 : Option (BMat B n n)
  dGdx : BMat B n n

/-- Result of `NewtonSolve.forward`: the converged state `x`, the final value
of the iteration counter, and the saved context (absent in `eval` mode). -/
structure NewtonResult (B n mp : ℕ) where
  x : BVec B n
  iters : ℕ
  saved : Option (NewtonSaved B n mp)

/-- `NewtonSolve.forward` (hbv_adj.py lines 376-474).  Control flow follows
the source: `x0` defaults to `p2`; the initial residual and state Jacobian
are computed and the Jacobian is checked for NaN/Inf; the Newton loop runs;
then, unless `evalFlag` is set, the parameter Jacobians are computed once at
the converged point: in the single-parameter-group branch (`p2 is None`)
`dGdp` is computed with NO NaN/Inf check, while in the two-group branch both
`dGdp` and `dGdp2` are computed and checked; finally the three tensors
`(dGdp, dGdp2, dGdx)` are saved for the backward pass.  With `batchP` false
the source's truthy `assert(...)` is a no-op and the subsequent
`ctx.save_for_backward(dGdp, ...)` reads the unbound local `dGdp`, an
unconditional error.  `AD_efficient` selects between two implementations of
the same Jacobian oracle and is therefore not modelled separately. -/
def NewtonSolve.forward {B n mp : ℕ} (c : NewtonCtx B n mp)
    (x0 : Option (BVec B n)) (batchP evalFlag : Bool) :
    Except String (NewtonResult B n mp) :=
  let x0' := match x0, c.p2 with
    | none, some q => some q
    | x, _ => x
  match x0' with
  | none => Except.error "AttributeError: x0 is None"
  | some x0v =>
    let gg := c.Gfun x0v c.p c.p2 c.t
    let dGdx := c.jacX x0v
    if hasNonFinite dGdx then
      Except.error "Jacobian matrix is NaN"
    else
      let resnorm := fun b => vnormInf (gg b)
      let resnorm0 := fun b => fmul (some 100) (resnorm b)
      match newtonLoop c ⟨x0v, gg, resnorm, resnorm0, dGdx⟩ 0 with
      | Except.error e => Except.error e
      | Except.ok (st, i) =>
        if evalFlag then
          Except.ok ⟨st.x, i, none⟩
        else if batchP then
          match c.p2 with
          | none =>
            Except.ok ⟨st.x, i, some ⟨c.jacP st.x, none, st.dGdx⟩⟩
          | some _ =>
            let dGdp := c.jacP st.x
            let dGdp2 := c.jacP2 st.x
            if hasNonFinite dGdp || hasNonFinite dGdp2 then
              Except.error "Jacobian matrix is NaN"
            else
              Except.ok ⟨st.x, i, some ⟨dGdp, some dGdp2, st.dGdx⟩⟩
        else
          Except.error "UnboundLocalError: dGdp"

/-- The tensors saved by `NewtonSolve.forward` for the backward pass, over
exact (finite) arithmetic: the backward rule itself performs no finiteness
checks, so it is embedded directly over rationals. -/
structure BSaved (B n mp : ℕ) where
  dGdp : Fin B → Fin n → Fin mp → ℚ
  dGdp2 : Option (Fin B → Fin n → Fin n → ℚ)
  dGdx : Fin B → Fin n → Fin n → ℚ

/-- The 9-tuple returned by `NewtonSolve.backward`, one slot per input of
`NewtonSolve.forward` `(p, p2, t, G, x0, auxG, batchP, eval, AD_efficient)`;
`none` models Python's `None` ("no gradient for this input").  The last seven
inputs never receive a gradient, so their slots carry `Option Unit`. -/
structure NewtonGrads (B n mp : ℕ) where
  gradP : Option (Fin B → Fin mp → ℚ)
  gradP2 : Option (Fin B → Fin n → ℚ)
  gradT : Option Unit
  gradG : Option Unit
  gradX0 : Option Unit
  gradAuxG : Option Unit
  gradBatchP : Option Unit
  gradEvalFlag : Option Unit
  gradADeff : Option Unit

/-- `NewtonSolve.backward` (hbv_adj.py lines 476-492).  Its only data inputs
are the three tensors retrieved from `ctx.saved_tensors` and the upstream
gradient `dLdx`; no Newton-iteration history exists to consult.  `msolve` is
the oracle for the module-level `matrixSolve = torch.linalg.solve`.  The
transpose of the converged state Jacobian is formed, the adjoint system is
solved (`lambTneg = matrixSolve(dGdxT, dLdx)`), and the parameter gradients
are `dLdp = -lambTneg^T . dGdp` and, when `dGdp2` was saved,
`dLdp2 = -lambTneg^T . dGdp2`; the `unsqueeze`/`permute`/`bmm`/`squeeze`
plumbing of the source amounts to these batched row-vector products.  All
other inputs receive `None`. -/
def NewtonSolve.backward {B n mp : ℕ}
    (msolve : (Fin B → Fin n → Fin n → ℚ) → (Fin B → Fin n → ℚ) →
      (Fin B → Fin n → ℚ))
    (saved : BSaved B n mp) (dLdx : Fin B → Fin n → ℚ) : NewtonGrads B n mp :=
  let dGdxT : Fin B → Fin n → Fin n → ℚ := fun b i j => saved.dGdx b j i
  let lambTneg := msolve dGdxT dLdx
  let dLdp : Fin B → Fin mp → ℚ :=
    fun b j => -(∑ i, lambTneg b i * saved.dGdp b i j)
  let dLdp2 := saved.dGdp2.map (fun d2 =>
    fun b j => -(∑ i, lambTneg b i * d2 b i j))
  ⟨some dLdp, dLdp2, none, none, none, none, none, none, none⟩

/-- Batched tensor of rationals, shape `[B, n]`, for the exact-arithmetic
embedding of `MOL`. -/
abbrev QBVec (B n : ℕ) := Fin B → Fin n → ℚ

/-- `MOL.forward` (hbv_adj.py lines 541-552): the per-step nonlinear residual
`G(x, p, xt, t, auxG)`.  `rhs` is the residual right-hand-side function
preloaded at construction (it returns the pair `(dS, fluxes)`, of which the
first component is used); `auxG = (dt, aux)`.  `mtd = 0` is backward Euler,
`mtd = 1` is Crank-Nicolson; any other `mtd` leaves the Python local `gg`
unbound, modelled as `none`. -/
def MOL.forward {B n mp nf : ℕ} {α : Type} (mtd : ℕ)
    (rhs : QBVec B n → (Fin B → Fin mp → ℚ) → ℕ → α → QBVec B n × QBVec B nf)
    (x : QBVec B n) (p : Fin B → Fin mp → ℚ) (xt : QBVec B n) (t : ℕ)
    (auxG : ℚ × α) : Option (QBVec B n) :=
  let dt := auxG.1
  let aux := auxG.2
  if mtd = 0 then
    some (fun b i => (x b i - xt b i) / dt - (rhs x p t aux).1 b i)
  else if mtd = 1 then
    some (fun b i =>
      (x b i - xt b i) / dt -
        ((rhs x p t aux).1 b i + (rhs xt p t aux).1 b i) * (0.5 : ℚ))
  else
    none

/-- The fourteen HBV-1.1p physical parameters (already mapped into their
physical ranges), named as in `HBVCapillary.parameter_bounds`
(hbv_1_1p.py lines 34-49). -/
structure HBVCapParams where
  parBETA : ℚ
  parFC : ℚ
  parK0 : ℚ
  parK1 : ℚ
  parK2 : ℚ
  parLP : ℚ
  parPERC : ℚ
  parUZL : ℚ
  parTT : ℚ
  parCFMAX : ℚ
  parCFR : ℚ
  parCWH : ℚ
  parBETAET : ℚ
  parC : ℚ

/-- Membership of each parameter in its declared closed interval from
`HBVCapillary.parameter_bounds`; the values actually produced by
`unpack_parameters` (sigmoid then affine rescale) always lie in these
intervals. -/
def HBVCapParamsInBounds (pr : HBVCapParams) : Prop :=
  1 ≤ pr.parBETA ∧ pr.parBETA ≤ 6 ∧
  50 ≤ pr.parFC ∧ pr.parFC ≤ 1000 ∧
  1/20 ≤ pr.parK0 ∧ pr.parK0 ≤ 9/10 ∧
  1/100 ≤ pr.parK1 ∧ pr.parK1 ≤ 1/2 ∧
  1/1000 ≤ pr.parK2 ∧ pr.parK2 ≤ 1/5 ∧
  1/5 ≤ pr.parLP ∧ pr.parLP ≤ 1 ∧
  0 ≤ pr.parPERC ∧ pr.parPERC ≤ 10 ∧
  0 ≤ pr.parUZL ∧ pr.parUZL ≤ 100 ∧
  -(5/2) ≤ pr.parTT ∧ pr.parTT ≤ 5/2 ∧
  1/2 ≤ pr.parCFMAX ∧ pr.parCFMAX ≤ 10 ∧
  0 ≤ pr.parCFR ∧ pr.parCFR ≤ 1/10 ∧
  0 ≤ pr.parCWH ∧ pr.parCWH ≤ 1/5 ∧
  3/10 ≤ pr.parBETAET ∧ pr.parBETAET ≤ 5 ∧
  0 ≤ pr.parC ∧ pr.parC ≤ 1

/-- The five storages of one (basin, ensemble-member) element, named as the
Python locals `SNOWPACK, MELTWATER, SM, SUZ, SLZ`. -/
structure HBVStorages where
  SNOWPACK : ℚ
  MELTWATER : ℚ
  SM : ℚ
  SUZ : ℚ
  SLZ : ℚ

/-- The per-step fluxes recorded by the explicit stepper loop body. -/
structure HBVCapFluxes where
  Q0 : ℚ
  Q1 : ℚ
  Q2 : ℚ
  ETact : ℚ
  recharge : ℚ
  excess : ℚ
  evapfactor : ℚ
  tosoil : ℚ
  PERC : ℚ
  capillary : ℚ

/-- Snow section of the explicit stepper loop body (hbv_1_1p.py lines
245-265): returns the updated `(SNOWPACK, MELTWATER)` and `tosoil`.
`torch.clamp(v, min=0.0)` is `max v 0` and `torch.min` is `min`. -/
def hbvSnow (pr : HBVCapParams) (T SNOW : ℚ) (SNOWPACK MELTWATER : ℚ) :
    ℚ × ℚ × ℚ :=
  let SP1 := SNOWPACK + SNOW
  let melt := min (max (pr.parCFMAX * (T - pr.parTT)) 0) SP1
  let MW1 := MELTWATER + melt
  let SP2 := SP1 - melt
  let refreezing := min (max (pr.parCFR * pr.parCFMAX * (pr.parTT - T)) 0) MW1
  let SP3 := SP2 + refreezing
  let MW2 := MW1 - refreezing
  let tosoil := max (MW2 - pr.parCWH * SP3) 0
  let MW3 := MW2 - tosoil
  (SP3, MW3, tosoil)

/-- Soil-and-evaporation section of the explicit stepper loop body
(hbv_1_1p.py lines 267-284): returns updated `SM` and
`(recharge, excess, ETact, evapfactor)`.  `pw` is the oracle for the torch
`**` operator (real powers are not rational-valued); its result is clamped
into `[0, 1]` exactly as in the source. -/
def hbvSoil (pw : ℚ → ℚ → ℚ) (nearzero : ℚ) (pr : HBVCapParams)
    (RAIN tosoil PET : ℚ) (SM : ℚ) : ℚ × ℚ × ℚ × ℚ × ℚ :=
  let soil_wetness := min (max (pw (SM / pr.parFC) pr.parBETA) 0) 1
  let recharge := (RAIN + tosoil) * soil_wetness
  let SM1 := SM + RAIN + tosoil - recharge
  let excess := max (SM1 - pr.parFC) 0
  let SM2 := SM1 - excess
  let evapfactor :=
    min (max (pw (SM2 / (pr.parLP * pr.parFC)) pr.parBETAET) 0) 1
  let ETact := min SM2 (PET * evapfactor)
  let SM3 := max (SM2 - ETact) nearzero
  (SM3, recharge, excess, ETact, evapfactor)

/-- Capillary-rise section (HBV 1.1p modification, hbv_1_1p.py lines
286-290): returns updated `(SM, SLZ)` and the capillary flux. -/
def hbvCapRise (nearzero : ℚ) (pr : HBVCapParams) (SM SLZ : ℚ) :
    ℚ × ℚ × ℚ :=
  let capillary := min SLZ (pr.parC * SLZ * (1 - min (SM / pr.parFC) 1))
  let SM4 := max (SM + capillary) nearzero
  let SLZ1 := max (SLZ - capillary) nearzero
  (SM4, SLZ1, capillary)

/-- Groundwater-boxes section of the explicit stepper loop body
(hbv_1_1p.py lines 292-302): returns updated `(SUZ, SLZ)` and
`(Q0, Q1, Q2, PERC)`. -/
def hbvGW (pr : HBVCapParams) (recharge excess : ℚ) (SUZ SLZ : ℚ) :
    ℚ × ℚ × ℚ × ℚ × ℚ × ℚ :=
  let SUZ1 := SUZ + recharge + excess
  let PERC := min SUZ1 pr.parPERC
  let SUZ2 := SUZ1 - PERC
  let Q0 := pr.parK0 * max (SUZ2 - pr.parUZL) 0
  let SUZ3 := SUZ2 - Q0
  let Q1 := pr.parK1 * SUZ3
  let SUZ4 := SUZ3 - Q1
  let SLZ2 := SLZ + PERC
  let Q2 := pr.parK2 * SLZ2
  let SLZ3 := SLZ2 - Q2
  (SUZ4, SLZ3, Q0, Q1, Q2, PERC)

/-- One full iteration of the explicit stepper time loop
(`HBVCapillary.forward`, hbv_1_1p.py lines 240-316) for one
(basin, ensemble-member) element; all tensor operations of the source are
elementwise over `[n_grid, nmul]`, so the step is embedded per element.
Precipitation is split by the temperature threshold
(`RAIN = P * (T >= TT)`, `SNOW = P * (T < TT)`), then the snow, soil/evap,
capillary-rise and groundwater sections run in order. -/
def hbvCapStep (pw : ℚ → ℚ → ℚ) (nearzero : ℚ) (pr : HBVCapParams)
    (PRECIP T PET : ℚ) (s : HBVStorages) : HBVStorages × HBVCapFluxes :=
  let RAIN := PRECIP * (if pr.parTT ≤ T then 1 else 0)
  let SNOW := PRECIP * (if T < pr.parTT then 1 else 0)
  let snow := hbvSnow pr T SNOW s.SNOWPACK s.MELTWATER
  let SP := snow.1
  let MW := snow.2.1
  let tosoil := snow.2.2
  let soil := hbvSoil pw nearzero pr RAIN tosoil PET s.SM
  let SM3 := soil.1
  let recharge := soil.2.1
  let excess := soil.2.2.1
  let ETact := soil.2.2.2.1
  let evapfactor := soil.2.2.2.2
  let capr := hbvCapRise nearzero pr SM3 s.SLZ
  let SM4 := capr.1
  let SLZ1 := capr.2.1
  let capillary := capr.2.2
  let gw := hbvGW pr recharge excess s.SUZ SLZ1
  let SUZ4 := gw.1
  let SLZ3 := gw.2.1
  let Q0 := gw.2.2.1
  let Q1 := gw.2.2.2.1
  let Q2 := gw.2.2.2.2.1
  let PERC := gw.2.2.2.2.2
  (⟨SP, MW, SM4, SUZ4, SLZ3⟩,
   ⟨Q0, Q1, Q2, ETact, recharge, excess, evapfactor, tosoil, PERC, capillary⟩)

/-- Modelled from the spec: `change_param_range` lives in
`hydroDL2.core.calc`, which is not under src/.  Spec section 3: "A raw value
in (0,1) ... maps affinely: param = lo + raw*(hi-lo)". -/
def change_param_range (param lo hi : ℚ) : ℚ := lo + param * (hi - lo)

/-- `HBV_adj.make_phy_parameters` (hbv_adj.py lines 122-154).  The tensor
`phy_params` has shape `[n_steps, n_grid, nfea]` and is modelled as an index
function; `bern` is the oracle for `torch.bernoulli(pmat)` where
`pmat = torch.ones([1, n_grid]) * dy_drop` — the draw made for the dynamic
parameter at position `i` of `name_list` is `bern dy_drop i g` for basin `g`
(one scalar per basin, no time index, so one draw is shared by all time
steps).  `parstaFull` broadcasts the values at the LAST time step of the
given slice (`phy_params[-1, :, :]`) over all steps; a column whose name is
in `dy_list` is replaced by
`dynPar * (1 - drmask) + staPar * drmask`. -/
def HBV_adj.make_phy_parameters (bern : ℚ → ℕ → ℕ → ℚ) (dy_drop : ℚ)
    (n_steps : ℕ) (phy_params : ℕ → ℕ → ℕ → ℚ)
    (name_list dy_list : List String) : ℕ → ℕ → ℕ → ℚ :=
  let parstaFull : ℕ → ℕ → ℕ → ℚ := fun _t g i => phy_params (n_steps - 1) g i
  if dy_list.isEmpty then
    parstaFull
  else
    fun t g i =>
      match name_list.get? i with
      | some nm =>
        if nm ∈ dy_list then
          let drmask := bern dy_drop i g
          phy_params t g i * (1 - drmask) + parstaFull t g i * drmask
        else
          parstaFull t g i
      | none => parstaFull t g i

/-- The slice `phy_params[self.warm_up:, :, :]` that `HBV_adj.forward`
(hbv_adj.py line 215) passes to `make_phy_parameters` for the simulation
(post-warm-up) period. -/
def adjRunSlice (warm_up : ℕ) (phy : ℕ → ℕ → ℕ → ℚ) : ℕ → ℕ → ℕ → ℚ :=
  fun t g i => phy (warm_up + t) g i

/-- `HBV_adj.unpack_parameters` (hbv_adj.py lines 80-119).  `σ` is the oracle
for `torch.sigmoid`.  The physical block is
`sigmoid(parameters[:, :, :count*nmul])` viewed as `[t, g, count, nmul]`,
permuted to `[t, nmul, g, count]` and reshaped to `[t, g*nmul, count]`, so
merged batch index `b` decodes as member `b / n_grid` and basin
`b % n_grid`.  The local `routing_params` is assigned ONLY under
`if self.routing == True:` but is read unconditionally when the returned
dictionary is built, so with routing disabled Python raises
`UnboundLocalError`; this is modelled by carrying the local as an `Option`
and failing where the unconditional read occurs. -/
def HBV_adj.unpack_parameters (σ : ℚ → ℚ) (routing : Bool)
    (nmul phy_param_count n_steps n_grid : ℕ) (parameters : ℕ → ℕ → ℕ → ℚ) :
    Except String ((ℕ → ℕ → ℕ → ℚ) × (ℕ → ℕ → ℚ)) :=
  let phy_params : ℕ → ℕ → ℕ → ℚ :=
    fun t b i => σ (parameters t (b % n_grid) (i * nmul + b / n_grid))
  let routing_params : Option (ℕ → ℕ → ℚ) :=
    if routing then
      some (fun g j =>
        σ (parameters (n_steps - 1) g (phy_param_count * nmul + j)))
    else
      none
  match routing_params with
  | some rp => Except.ok (phy_params, rp)
  | none =>
    Except.error
      "UnboundLocalError: local variable routing_params referenced before assignment"

/-- The keys of `HBVCapillary.parameter_bounds` in declaration order
(hbv_1_1p.py lines 34-49). -/
def capPhyNames : List String :=
  ["parBETA", "parFC", "parK0", "parK1", "parK2", "parLP", "parPERC",
   "parUZL", "parTT", "parCFMAX", "parCFR", "parCWH", "parBETAET", "parC"]

/-- The bound table `HBVCapillary.parameter_bounds` as `(lower, upper)`. -/
def capBounds : String → ℚ × ℚ
  | "parBETA" => (1, 6)
  | "parFC" => (50, 1000)
  | "parK0" => (1/20, 9/10)
  | "parK1" => (1/100, 1/2)
  | "parK2" => (1/1000, 1/5)
  | "parLP" => (1/5, 1)
  | "parPERC" => (0, 10)
  | "parUZL" => (0, 100)
  | "parTT" => (-(5/2), 5/2)
  | "parCFMAX" => (1/2, 10)
  | "parCFR" => (0, 1/10)
  | "parCWH" => (0, 1/5)
  | "parBETAET" => (3/10, 5)
  | "parC" => (0, 1)
  | _ => (0, 0)

/-- The bound table `HBVCapillary.routing_parameter_bounds`
(hbv_1_1p.py lines 50-53). -/
def capRoutBounds : String → ℚ × ℚ
  | "rout_a" => (0, 29/10)
  | "rout_b" => (0, 13/2)
  | _ => (0, 0)

/-- The configuration fields of `HBVCapillary` that its forward pass reads
(hbv_1_1p.py lines 18-72).  `pred_cutoff` is set to the configured warm-up
length at construction, before `forward` possibly resets `warm_up` to 0. -/
structure CapCfg where
  warm_up : ℕ
  warm_up_states : Bool
  pred_cutoff : ℕ
  static_idx : ℕ
  dy_params : List String
  dy_drop : ℚ
  routing : Bool
  comprout : Bool
  nearzero : ℚ
  nmul : ℕ

/-- `HBVCapillary.unpack_parameters` (hbv_1_1p.py lines 85-147), as the map
from a parameter name to its tensor in the returned dictionary (a name the
source never stores maps to 0).  `σ` models `torch.sigmoid`; `bern` models
`torch.bernoulli(pmat)` with `pmat = torch.ones([n_grid, 1]) * dy_drop`: the
draw for the dynamic parameter at position `i` is `bern dy_drop i g`, one
scalar per basin `g`, shared by all `nmul` members and all time steps.  The
physical block is `sigmoid(parameters[:, :, :count*nmul])` viewed as
`[t, g, count, nmul]`.  Static parameters take the value at time index
`static_idx` (time-invariant, so the returned function ignores `t`); dynamic
ones combine `dynamic*(1-drmask) + static*drmask`.  Every entry then passes
through `change_param_range` with its declared bounds.  A routing parameter
is stored only when `self.routing` holds, taken from the last row of the raw
array (`nrows` is the raw array's first-dimension length) and broadcast over
time. -/
def HBVCapillary.unpack_parameters (σ : ℚ → ℚ) (bern : ℚ → ℕ → ℕ → ℚ)
    (cfg : CapCfg) (nrows : ℕ) (parameters : ℕ → ℕ → ℕ → ℚ) :
    String → ℕ → ℕ → ℕ → ℚ :=
  let cnt := capPhyNames.length
  let phy : ℕ → ℕ → ℕ → ℕ → ℚ :=
    fun t g i m => σ (parameters t g (i * cfg.nmul + m))
  fun name =>
    match capPhyNames.indexOf? name with
    | some i =>
      let staticPar : ℕ → ℕ → ℚ := fun g m => phy cfg.static_idx g i m
      let combined : ℕ → ℕ → ℕ → ℚ :=
        if name ∈ cfg.dy_params then
          fun t g m =>
            let drmask := bern cfg.dy_drop i g
            phy t g i m * (1 - drmask) + staticPar g m * drmask
        else
          fun _t g m => staticPar g m
      fun t g m =>
        change_param_range (combined t g m) (capBounds name).1
          (capBounds name).2
    | none =>
      if cfg.routing && (name = "rout_a" || name = "rout_b") then
        let j : ℕ := if name = "rout_a" then 0 else 1
        fun _t g _m =>
          change_param_range
            (σ (parameters (nrows - 1) g (cnt * cfg.nmul + j)))
            (capRoutBounds name).1 (capRoutBounds name).2
      else
        fun _ _ _ => 0

/-- Read the fourteen physical parameters of one (basin `g`, member `m`)
element at time step `t` out of the parameter dictionary, as the loop header
of `HBVCapillary.forward` does (hbv_1_1p.py lines 234-238). -/
def capParamsAt (pd : String → ℕ → ℕ → ℕ → ℚ) (t g m : ℕ) : HBVCapParams :=
  ⟨pd "parBETA" t g m, pd "parFC" t g m, pd "parK0" t g m, pd "parK1" t g m,
   pd "parK2" t g m, pd "parLP" t g m, pd "parPERC" t g m, pd "parUZL" t g m,
   pd "parTT" t g m, pd "parCFMAX" t g m, pd "parCFR" t g m,
   pd "parCWH" t g m, pd "parBETAET" t g m, pd "parC" t g m⟩

/-- The state of the explicit stepper after `t` iterations of the time loop
of `HBVCapillary.forward` (hbv_1_1p.py lines 235-316), per (basin, member)
element.  `wu` is `self.warm_up`: the loop reads forcing `Pm[t]` taken from
the slice `x[self.warm_up:]` (so global index `wu + t`) and the parameter
dictionary at index `self.warm_up + t` (dynamic entries vary with `t`,
static ones are time-constant). -/
def capStatesAt (pw : ℚ → ℚ → ℚ) (nearzero : ℚ)
    (pd : String → ℕ → ℕ → ℕ → ℚ) (wu : ℕ) (P T PET : ℕ → ℕ → ℚ)
    (init : ℕ → ℕ → HBVStorages) : ℕ → ℕ → ℕ → HBVStorages
  | 0 => init
  | t + 1 => fun g m =>
    (hbvCapStep pw nearzero (capParamsAt pd (wu + t) g m) (P (wu + t) g)
      (T (wu + t) g) (PET (wu + t) g)
      (capStatesAt pw nearzero pd wu P T PET init t g m)).1

/-- The fluxes recorded at iteration `t` of the explicit stepper time loop
(the values written into `Qsimmu[t], Q0_sim[t], ...`). -/
def capFluxAt (pw : ℚ → ℚ → ℚ) (nearzero : ℚ)
    (pd : String → ℕ → ℕ → ℕ → ℚ) (wu : ℕ) (P T PET : ℕ → ℕ → ℚ)
    (init : ℕ → ℕ → HBVStorages) (t g m : ℕ) : HBVCapFluxes :=
  (hbvCapStep pw nearzero (capParamsAt pd (wu + t) g m) (P (wu + t) g)
    (T (wu + t) g) (PET (wu + t) g)
    (capStatesAt pw nearzero pd wu P T PET init t g m)).2

/-- Mean over the ensemble dimension (`.mean(-1)` over `nmul` members). -/
def meanMul (nmul : ℕ) (f : ℕ → ℚ) : ℚ :=
  (∑ m ∈ Finset.range nmul, f m) / nmul

/-- The simulated series filled by the explicit stepper time loop, each of
shape `[time, basin, member]` (hbv_1_1p.py lines 220-232 and 304-316). -/
structure CapSeries where
  Qsimmu : ℕ → ℕ → ℕ → ℚ
  Q0_sim : ℕ → ℕ → ℕ → ℚ
  Q1_sim : ℕ → ℕ → ℕ → ℚ
  Q2_sim : ℕ → ℕ → ℕ → ℚ
  AET : ℕ → ℕ → ℕ → ℚ
  PETm : ℕ → ℕ → ℕ → ℚ
  SWE_sim : ℕ → ℕ → ℕ → ℚ
  recharge_sim : ℕ → ℕ → ℕ → ℚ
  excs_sim : ℕ → ℕ → ℕ → ℚ
  evapfactor_sim : ℕ → ℕ → ℕ → ℚ
  tosoil_sim : ℕ → ℕ → ℕ → ℚ
  PERC_sim : ℕ → ℕ → ℕ → ℚ
  capillary_sim : ℕ → ℕ → ℕ → ℚ

/-- The output dictionary of a non-warm-up `HBVCapillary.forward` call
(hbv_1_1p.py lines 372-391); every entry is a `[time, basin, var]` tensor. -/
structure CapOutDict where
  flow_sim : ℕ → ℕ → ℕ → ℚ
  srflow : ℕ → ℕ → ℕ → ℚ
  ssflow : ℕ → ℕ → ℕ → ℚ
  gwflow : ℕ → ℕ → ℕ → ℚ
  AET_hydro : ℕ → ℕ → ℕ → ℚ
  PET_hydro : ℕ → ℕ → ℕ → ℚ
  SWE : ℕ → ℕ → ℕ → ℚ
  flow_sim_no_rout : ℕ → ℕ → ℕ → ℚ
  srflow_no_rout : ℕ → ℕ → ℕ → ℚ
  ssflow_no_rout : ℕ → ℕ → ℕ → ℚ
  gwflow_no_rout : ℕ → ℕ → ℕ → ℚ
  recharge : ℕ → ℕ → ℕ → ℚ
  excs : ℕ → ℕ → ℕ → ℚ
  evapfactor : ℕ → ℕ → ℕ → ℚ
  tosoil : ℕ → ℕ → ℕ → ℚ
  percolation : ℕ → ℕ → ℕ → ℚ
  capillary : ℕ → ℕ → ℕ → ℚ
  BFI_sim : ℕ → ℕ → ℕ → ℚ

/-- Result of `HBVCapillary.forward`: the warm-up mode returns the routed
flow and the five final storages (hbv_1_1p.py line 365); otherwise the full
output dictionary is returned. -/
inductive CapResult where
  | warmup (Qs : ℕ → ℕ → ℕ → ℚ) (finalStates : ℕ → ℕ → HBVStorages)
  | outputs (d : CapOutDict)

/-- Drop the first `c` time steps of a series
(`out_dict[key][self.pred_cutoff:]`). -/
def dropWarm (c : ℕ) (f : ℕ → ℕ → ℕ → ℚ) : ℕ → ℕ → ℕ → ℚ :=
  fun t g v => f (c + t) g v

/-- The tail of `HBVCapillary.forward` after the time loop (hbv_1_1p.py
lines 318-396).  `UHg` and `UHc` are oracles for `UH_gamma` and `UH_conv`
(module `hydroDL2.core.calc.uh_routing`, not under src/); `UHg` takes the
two routing parameter tensors and the window length 15, `UHc` a flow series
and a kernel.  With routing disabled the routed components
`Q0_rout = Q1_rout = Q2_rout = None`; in non-warm-up mode the baseflow-index
line applies `torch.sum` to `Q2_rout` unconditionally, which with `None`
raises a `TypeError` — modelled by the failing `match`.  `ns` is the number
of simulated steps (`n_steps` after slicing). -/
def capOutputStage (cfg : CapCfg) (initFlag : Bool)
    (UHg : (ℕ → ℕ → ℕ → ℚ) → (ℕ → ℕ → ℕ → ℚ) → ℕ → (ℕ → ℕ → ℕ → ℚ))
    (UHc : (ℕ → ℕ → ℕ → ℚ) → (ℕ → ℕ → ℕ → ℚ) → (ℕ → ℕ → ℕ → ℚ))
    (muwts : Option (ℕ → ℚ)) (pd : String → ℕ → ℕ → ℕ → ℚ) (ser : CapSeries)
    (finalStates : ℕ → ℕ → HBVStorages) (ns ng : ℕ) :
    Except String CapResult :=
  let Qsimavg : ℕ → ℕ → ℚ :=
    match muwts with
    | none => fun t g => meanMul cfg.nmul (fun m => ser.Qsimmu t g m)
    | some w => fun t g => ∑ m ∈ Finset.range cfg.nmul, ser.Qsimmu t g m * w m
  let routed :
      (ℕ → ℕ → ℕ → ℚ) × Option (ℕ → ℕ → ℕ → ℚ) × Option (ℕ → ℕ → ℕ → ℚ) ×
        Option ((ℕ → ℕ → ℕ → ℚ) × (ℕ → ℕ → ℕ → ℚ)) :=
    if cfg.routing then
      let Qsim : ℕ → ℕ → ℕ → ℚ :=
        if cfg.comprout then
          fun t b _ => ser.Qsimmu t (b / cfg.nmul) (b % cfg.nmul)
        else
          fun t g _ => Qsimavg t g
      let UH := UHg (pd "rout_a") (pd "rout_b") 15
      let Qsrout := UHc Qsim UH
      let Q0_rout :=
        UHc (fun t g _ => meanMul cfg.nmul (fun m => ser.Q0_sim t g m)) UH
      let Q1_rout :=
        UHc (fun t g _ => meanMul cfg.nmul (fun m => ser.Q1_sim t g m)) UH
      let Q2_rout :=
        UHc (fun t g _ => meanMul cfg.nmul (fun m => ser.Q2_sim t g m)) UH
      let Qs : ℕ → ℕ → ℕ → ℚ :=
        if cfg.comprout then
          match muwts with
          | none =>
            fun t g _ =>
              meanMul cfg.nmul (fun m => Qsrout t (g * cfg.nmul + m) 0)
          | some w =>
            fun t g _ =>
              ∑ m ∈ Finset.range cfg.nmul, Qsrout t (g * cfg.nmul + m) 0 * w m
        else
          Qsrout
      (Qs, some Q0_rout, some Q1_rout, some (Q2_rout, Qsim))
    else
      (fun t g _ => Qsimavg t g, none, none, none)
  let Qs := routed.1
  let Q0_rout := routed.2.1
  let Q1_rout := routed.2.2.1
  if initFlag then
    Except.ok (CapResult.warmup Qs finalStates)
  else
    match routed.2.2.2 with
    | none =>
      Except.error
        "TypeError: sum(): argument input (position 1) must be Tensor, not NoneType"
    | some (Q2_rout, Qsim) =>
      let BFI_sim : ℕ → ℚ := fun g =>
        100 * ((∑ t ∈ Finset.range ns, Q2_rout t g 0) /
          ((∑ t ∈ Finset.range ns, Qs t g 0) + cfg.nearzero))
      let d : CapOutDict :=
        { flow_sim := Qs
          srflow := Q0_rout.getD (fun _ _ _ => 0)
          ssflow := Q1_rout.getD (fun _ _ _ => 0)
          gwflow := Q2_rout
          AET_hydro := fun t g _ => meanMul cfg.nmul (fun m => ser.AET t g m)
          PET_hydro := fun t g _ => meanMul cfg.nmul (fun m => ser.PETm t g m)
          SWE := fun t g _ => meanMul cfg.nmul (fun m => ser.SWE_sim t g m)
          flow_sim_no_rout := Qsim
          srflow_no_rout :=
            fun t g _ => meanMul cfg.nmul (fun m => ser.Q0_sim t g m)
          ssflow_no_rout :=
            fun t g _ => meanMul cfg.nmul (fun m => ser.Q1_sim t g m)
          gwflow_no_rout :=
            fun t g _ => meanMul cfg.nmul (fun m => ser.Q2_sim t g m)
          recharge :=
            fun t g _ => meanMul cfg.nmul (fun m => ser.recharge_sim t g m)
          excs := fun t g _ => meanMul cfg.nmul (fun m => ser.excs_sim t g m)
          evapfactor :=
            fun t g _ => meanMul cfg.nmul (fun m => ser.evapfactor_sim t g m)
          tosoil :=
            fun t g _ => meanMul cfg.nmul (fun m => ser.tosoil_sim t g m)
          percolation :=
            fun t g _ => meanMul cfg.nmul (fun m => ser.PERC_sim t g m)
          capillary :=
            fun t g _ => meanMul cfg.nmul (fun m => ser.capillary_sim t g m)
          BFI_sim :=
            fun _ _ _ => meanMul ng (fun g => BFI_sim g) }
      if cfg.warm_up_states then
        Except.ok (CapResult.outputs d)
      else
        Except.ok (CapResult.outputs
          { flow_sim := dropWarm cfg.pred_cutoff d.flow_sim
            srflow := dropWarm cfg.pred_cutoff d.srflow
            ssflow := dropWarm cfg.pred_cutoff d.ssflow
            gwflow := dropWarm cfg.pred_cutoff d.gwflow
            AET_hydro := dropWarm cfg.pred_cutoff d.AET_hydro
            PET_hydro := dropWarm cfg.pred_cutoff d.PET_hydro
            SWE := dropWarm cfg.pred_cutoff d.SWE
            flow_sim_no_rout := dropWarm cfg.pred_cutoff d.flow_sim_no_rout
            srflow_no_rout := dropWarm cfg.pred_cutoff d.srflow_no_rout
            ssflow_no_rout := dropWarm cfg.pred_cutoff d.ssflow_no_rout
            gwflow_no_rout := dropWarm cfg.pred_cutoff d.gwflow_no_rout
            recharge := dropWarm cfg.pred_cutoff d.recharge
            excs := dropWarm cfg.pred_cutoff d.excs
            evapfactor := dropWarm cfg.pred_cutoff d.evapfactor
            tosoil := dropWarm cfg.pred_cutoff d.tosoil
            percolation := dropWarm cfg.pred_cutoff d.percolation
            capillary := dropWarm cfg.pred_cutoff d.capillary
            BFI_sim := dropWarm cfg.pred_cutoff d.BFI_sim })

/-- The `0.001`-initialised storages used when no state warm-up is run
(hbv_1_1p.py lines 183-199). -/
def capInit0 : ℕ → ℕ → HBVStorages :=
  fun _ _ => ⟨1/1000, 1/1000, 1/1000, 1/1000, 1/1000⟩

/-- Build the recorded series of the explicit stepper time loop from the
per-step fluxes and states (`SWE_sim[t]` is the snowpack AFTER step `t`). -/
def capSeriesOf (pw : ℚ → ℚ → ℚ) (nearzero : ℚ)
    (pd : String → ℕ → ℕ → ℕ → ℚ) (wu : ℕ) (P T PET : ℕ → ℕ → ℚ)
    (init : ℕ → ℕ → HBVStorages) : CapSeries :=
  let fl := capFluxAt pw nearzero pd wu P T PET init
  { Qsimmu := fun t g m => (fl t g m).Q0 + (fl t g m).Q1 + (fl t g m).Q2
    Q0_sim := fun t g m => (fl t g m).Q0
    Q1_sim := fun t g m => (fl t g m).Q1
    Q2_sim := fun t g m => (fl t g m).Q2
    AET := fun t g m => (fl t g m).ETact
    PETm := fun t g _m => PET (wu + t) g
    SWE_sim := fun t g m =>
      (capStatesAt pw nearzero pd wu P T PET init (t + 1) g m).SNOWPACK
    recharge_sim := fun t g m => (fl t g m).recharge
    excs_sim := fun t g m => (fl t g m).excess
    evapfactor_sim := fun t g m => (fl t g m).evapfactor
    tosoil_sim := fun t g m => (fl t g m).tosoil
    PERC_sim := fun t g m => (fl t g m).PERC
    capillary_sim := fun t g m => (fl t g m).capillary }

/-- `HBVCapillary.forward` (hbv_1_1p.py lines 149-396).  `x` is the forcing
tensor `[time, basin, var]` with variables ordered `prcp, tmean, pet`
(the default `self.variables`); `ns` is its time length; `parameters` the
raw NN output with `nrows` rows.  When `warm_up_states` is false the
effective warm-up is reset to 0; otherwise the warm-up branch constructs an
inner model with `initialize = True`, `warm_up = 0`, `static_idx =
warm_up - 1`, `routing = False`, `comprout = False`, `dy_params = []` and
runs it on `x[0:warm_up]` purely to obtain the initial storages, which the
embedding realises by running the same step loop with that inner
configuration.  The initial values (0.001 etc.) written into the series
tensors before the loop are irrelevant: every recorded index is overwritten
by the loop, and the output stage only reads recorded indices. -/
def HBVCapillary.forward (pw σ : ℚ → ℚ → ℚ) (bern : ℚ → ℕ → ℕ → ℚ)
    (UHg : (ℕ → ℕ → ℕ → ℚ) → (ℕ → ℕ → ℕ → ℚ) → ℕ → (ℕ → ℕ → ℕ → ℚ))
    (UHc : (ℕ → ℕ → ℕ → ℚ) → (ℕ → ℕ → ℕ → ℚ) → (ℕ → ℕ → ℕ → ℚ))
    (cfg : CapCfg) (initFlag : Bool) (ns ng nrows : ℕ)
    (x : ℕ → ℕ → ℕ → ℚ) (muwts : Option (ℕ → ℚ))
    (parameters : ℕ → ℕ → ℕ → ℚ) : Except String CapResult :=
  let σ1 : ℚ → ℚ := fun q => σ q 0
  let wu := if cfg.warm_up_states then cfg.warm_up else 0
  let P : ℕ → ℕ → ℚ := fun t g => x t g 0
  let T : ℕ → ℕ → ℚ := fun t g => x t g 1
  let PET : ℕ → ℕ → ℚ := fun t g => x t g 2
  let states0 : ℕ → ℕ → HBVStorages :=
    if 0 < wu then
      let cfgW : CapCfg :=
        { cfg with warm_up := 0, static_idx := wu - 1, dy_params := [],
                   routing := false, comprout := false }
      let pdW := HBVCapillary.unpack_parameters σ1 bern cfgW nrows parameters
      capStatesAt pw cfg.nearzero pdW 0 P T PET capInit0 wu
    else
      capInit0
  let pd := HBVCapillary.unpack_parameters σ1 bern cfg nrows parameters
  let nsRun := ns - wu
  let ser := capSeriesOf pw cfg.nearzero pd wu P T PET states0
  let finalStates := capStatesAt pw cfg.nearzero pd wu P T PET states0 nsRun
  capOutputStage cfg initFlag UHg UHc muwts pd ser finalStates nsRun ng

/-- A concrete `torch.linalg.solve` oracle for 1x1 batched systems. -/
def bsolve1 : (Fin 1 → Fin 1 → Fin 1 → ℚ) → (Fin 1 → Fin 1 → ℚ) →
    (Fin 1 → Fin 1 → ℚ) :=
  fun A v => fun b i => v b i / A b i i

/-- Concrete saved tensors with a second-group Jacobian present, as produced
by the `MOL.nsteps_pDyn` pathway where `p2` is the previous state `xt`. -/
def savedC2 : BSaved 1 1 1 :=
  ⟨fun _ _ _ => 3, some (fun _ _ _ => 5), fun _ _ _ => 2⟩

/-- Concrete saved tensors with no second parameter group. -/
def bsavedW : BSaved 1 1 1 :=
  ⟨fun _ _ _ => 7, none, fun _ _ _ => 2⟩

/-- A concrete solver context with a second parameter group (`p2` present,
as in the `nsteps_pDyn` pathway): zero residual, finite Jacobians. -/
def newtonCtxW : NewtonCtx 1 1 1 where
  Gfun := fun _ _ _ _ => fun _ _ => some 0
  jacX := fun _ => fun _ _ _ => some 1
  jacP := fun _ => fun _ _ _ => some 1
  jacP2 := fun _ => fun _ _ _ => some 1
  msolve := fun M v => fun b i => fdiv (v b i) (M b i i)
  p := fun _ _ => some 0
  p2 := some (fun _ _ => some 0)
  t := 0

/-- Expected saved tensors for `newtonCtxW`. -/
def newtonSavedW : NewtonSaved 1 1 1 :=
  ⟨fun _ _ _ => some 1, some (fun _ _ _ => some 1), fun _ _ _ => some 1⟩

/-- Expected forward result for `newtonCtxW`: the loop is never entered
(zero initial residual), so the result state is the initial `x0 = p2`. -/
def newtonResW : NewtonResult 1 1 1 :=
  ⟨fun _ _ => some 0, 0, some newtonSavedW⟩

/-- A concrete solver context with a SINGLE parameter group (`p2 = None`)
whose parameter Jacobian `dGdp` contains a non-finite (NaN) entry while the
state Jacobian is finite and the residual is identically zero. -/
def newtonCtxNaN : NewtonCtx 1 1 1 where
  Gfun := fun _ _ _ _ => fun _ _ => some 0
  jacX := fun _ => fun _ _ _ => some 1
  jacP := fun _ => fun _ _ _ => none
  jacP2 := fun _ => fun _ _ _ => some 1
  msolve := fun M v => fun b i => fdiv (v b i) (M b i i)
  p := fun _ _ => some 0
  p2 := none
  t := 0

/-- The (unchecked) tensors saved by a `newtonCtxNaN` run: `dGdp` is
entirely non-finite. -/
def newtonSavedNaN : NewtonSaved 1 1 1 :=
  ⟨fun _ _ _ => none, none, fun _ _ _ => some 1⟩

/-- Expected forward result for `newtonCtxNaN`: it completes successfully
(no error) even though the saved `dGdp` is entirely non-finite. -/
def newtonResNaN : NewtonResult 1 1 1 :=
  ⟨fun _ _ => some 0, 0, some newtonSavedNaN⟩

/-- A concrete in-bounds parameter set (BETA 2, FC 100, K0 0.1, K1 0.1,
K2 0.01, LP 0.5, PERC 1, UZL 10, TT 0, CFMAX 1, CFR 0.01, CWH 0.01,
BETAET 1, C 0.5). -/
def prCE : HBVCapParams :=
  ⟨2, 100, 1/10, 1/10, 1/100, 1/2, 1, 10, 0, 1, 1/100, 1/100, 1, 1/2⟩

/-- All five storages at the default floor `nearzero = 1e-5`. -/
def sCE : HBVStorages :=
  ⟨1/100000, 1/100000, 1/100000, 1/100000, 1/100000⟩

/-- A concrete power oracle (the `**` result is irrelevant to the storages
tracked in the counterexample because it is clamped into `[0, 1]`). -/
def pwCE : ℚ → ℚ → ℚ := fun _ _ => 0

/-- A raw parameter trajectory whose value equals its time index, so
different time steps are distinguishable. -/
def ppCE : ℕ → ℕ → ℕ → ℚ := fun t _ _ => (t : ℚ)

/-- A concrete `HBVCapillary` configuration with `parBETA` dynamic. -/
def cfgC8 : CapCfg :=
  ⟨1, true, 1, 0, ["parBETA"], 1/2, false, false, 1/100000, 1⟩

-- ===================================================================
-- Theorems
-- ===================================================================

/-- C1: For every saved converged state Jacobian `dGdx`, parameter Jacobian
`dGdp` (and optional second-group Jacobian `dGdp2`) and every upstream
gradient `dLdx`, `NewtonSolve.backward` computes the parameter gradient by
solving the transposed linear system `dGdx^T . lamb = dLdx` and returning
`dLdp = -lamb^T . dGdp` (and `dLdp2 = -lamb^T . dGdp2` when `dGdp2` is
present).  By the very signature of `NewtonSolve.backward`, only the three
tensors saved at forward exit and the upstream gradient enter the
computation — no per-iteration Newton history exists.  The hypothesis states
that the linear-solve oracle actually solves the transposed system at this
instance. -/
theorem newtonSolve_backward_adjoint {B n mp : ℕ}
    (msolve : (Fin B → Fin n → Fin n → ℚ) → (Fin B → Fin n → ℚ) →
      (Fin B → Fin n → ℚ))
    (saved : BSaved B n mp) (dLdx : Fin B → Fin n → ℚ)
    (hsolve : ∀ b i,
      (∑ k, saved.dGdx b k i *
        msolve (fun b2 i2 j2 => saved.dGdx b2 j2 i2) dLdx b k) = dLdx b i) :
    ∃ lamb : Fin B → Fin n → ℚ,
      (∀ b i, (∑ k, saved.dGdx b k i * lamb b k) = dLdx b i) ∧
      (NewtonSolve.backward msolve saved dLdx).gradP =
        some (fun b j => -(∑ i, lamb b i * saved.dGdp b i j)) ∧
      (NewtonSolve.backward msolve saved dLdx).gradP2 =
        Option.map (fun d2 => fun b j => -(∑ i, lamb b i * d2 b i j))
          saved.dGdp2 :=
  ⟨msolve (fun b2 i2 j2 => saved.dGdx b2 j2 i2) dLdx, hsolve, rfl, rfl⟩

/-- Witness for C1 at a concrete instance (`dGdx = 2`, `dGdp = 7`,
`dLdx = 4`, exact 1x1 solver). -/
theorem newtonSolve_backward_adjoint_witness :
    ∃ lamb : Fin 1 → Fin 1 → ℚ,
      (∀ b i, (∑ k, bsavedW.dGdx b k i * lamb b k) =
        (fun (_ : Fin 1) (_ : Fin 1) => (4 : ℚ)) b i) ∧
      (NewtonSolve.backward bsolve1 bsavedW (fun _ _ => 4)).gradP =
        some (fun b j => -(∑ i, lamb b i * bsavedW.dGdp b i j)) ∧
      (NewtonSolve.backward bsolve1 bsavedW (fun _ _ => 4)).gradP2 =
        Option.map (fun d2 => fun b j => -(∑ i, lamb b i * d2 b i j))
          bsavedW.dGdp2 :=
  newtonSolve_backward_adjoint bsolve1 bsavedW (fun _ _ => 4)
    (by intro b i; simp [bsavedW, bsolve1, Fin.sum_univ_one]; norm_num)

/-- C2, counterexample: the claim says the previous converged state (the
`xt` that `MOL.nsteps_pDyn` passes as the second operator input, hbv_adj.py
line 569) receives no gradient directly from this operator.  But `backward`
returns `dLdp2` in the slot of that second input whenever `dGdp2` was saved
— which is exactly the `nsteps_pDyn` pathway, where `p2 = xt` is not `None`
— so the previous state DOES receive the gradient `-lamb^T . dGdp2`
(here `-(4/2)*5 = -10 ≠ None`). -/
theorem newtonSolve_backward_xt_grad_counterexample :
    (NewtonSolve.backward bsolve1 savedC2 (fun _ _ => 4)).gradP2 ≠ none ∧
    (NewtonSolve.backward bsolve1 savedC2 (fun _ _ => 4)).gradP2 =
      some (fun _ _ => -10) := by
  have h0 : (NewtonSolve.backward bsolve1 savedC2 (fun _ _ => 4)).gradP2 =
      some (fun _ _ => -(∑ _i : Fin 1, (4 : ℚ) / 2 * 5)) := rfl
  have h2 : (NewtonSolve.backward bsolve1 savedC2 (fun _ _ => 4)).gradP2 =
      some (fun _ _ => -10) := by
    rw [h0]
    congr 1
    funext b j
    rw [Fin.sum_univ_one]
    norm_num
  exact ⟨by rw [h2]; simp, h2⟩

/-- C2, amended: `NewtonSolve.backward` returns non-`None` gradients exactly
for the first two inputs `p` and `p2`: the `p` slot always carries
`-lamb^T . dGdp`, the `p2` slot carries `-lamb^T . dGdp2` precisely when a
second-group Jacobian was saved (in the `nsteps_pDyn` pathway `p2` is the
previous state `xt`, which therefore receives its gradient directly from
this operator), and the remaining seven inputs
`(t, G, x0, auxG, batchP, eval, AD_efficient)` always receive `None`. -/
theorem newtonSolve_backward_grad_slots {B n mp : ℕ}
    (msolve : (Fin B → Fin n → Fin n → ℚ) → (Fin B → Fin n → ℚ) →
      (Fin B → Fin n → ℚ))
    (saved : BSaved B n mp) (dLdx : Fin B → Fin n → ℚ) :
    (NewtonSolve.backward msolve saved dLdx).gradP =
      some (fun b j =>
        -(∑ i, msolve (fun b2 i2 j2 => saved.dGdx b2 j2 i2) dLdx b i *
          saved.dGdp b i j)) ∧
    (NewtonSolve.backward msolve saved dLdx).gradP2 =
      Option.map (fun d2 => fun b j =>
        -(∑ i, msolve (fun b2 i2 j2 => saved.dGdx b2 j2 i2) dLdx b i *
          d2 b i j)) saved.dGdp2 ∧
    (NewtonSolve.backward msolve saved dLdx).gradT = none ∧
    (NewtonSolve.backward msolve saved dLdx).gradG = none ∧
    (NewtonSolve.backward msolve saved dLdx).gradX0 = none ∧
    (NewtonSolve.backward msolve saved dLdx).gradAuxG = none ∧
    (NewtonSolve.backward msolve saved dLdx).gradBatchP = none ∧
    (NewtonSolve.backward msolve saved dLdx).gradEvalFlag = none ∧
    (NewtonSolve.backward msolve saved dLdx).gradADeff = none :=
  ⟨rfl, rfl, rfl, rfl, rfl, rfl, rfl, rfl, rfl⟩

/-- C3: For every state `x`, previous state `xt`, parameters `p`, time index
`t` and step size `dt`, the per-step nonlinear residual `MOL.forward` equals
`(x - xt)/dt - rhs(x, p, t)` when `mtd = 0` (backward Euler), and
`(x - xt)/dt - (rhs(x, p, t) + rhs(xt, p, t)) * 0.5` when `mtd = 1`
(trapezoidal / Crank-Nicolson). -/
theorem MOL_forward_residual {B n mp nf : ℕ} {α : Type}
    (rhs : QBVec B n → (Fin B → Fin mp → ℚ) → ℕ → α → QBVec B n × QBVec B nf)
    (x xt : QBVec B n) (p : Fin B → Fin mp → ℚ) (t : ℕ) (dt : ℚ) (aux : α) :
    MOL.forward 0 rhs x p xt t (dt, aux) =
      some (fun b i => (x b i - xt b i) / dt - (rhs x p t aux).1 b i) ∧
    MOL.forward 1 rhs x p xt t (dt, aux) =
      some (fun b i => (x b i - xt b i) / dt -
        ((rhs x p t aux).1 b i + (rhs xt p t aux).1 b i) * (0.5 : ℚ)) :=
  ⟨rfl, rfl⟩

/-- C6: Inside the Newton loop, the state Jacobian is recomputed in an
iteration if and only if `torch.max(resnorm/resnorm0) > 0.2` (threshold
`1/5`); when the condition fails, the update solves against the Jacobian
carried over from the last iteration in which it was computed (`st.dGdx`,
quasi-Newton reuse), and the carried Jacobian is stored onward unchanged;
when it holds, a fresh Jacobian at the current iterate is computed, NaN/Inf
checked, used for the solve and stored onward. -/
theorem newtonBody_jacobian_reuse {B n mp : ℕ} (c : NewtonCtx B n mp)
    (st : NewtonLoopState B n) :
    newtonBody c st =
      (if jacRecompCond st then
        (if hasNonFinite (c.jacX st.x) then
          Except.error "Jacobian matrix is NaN"
        else
          Except.ok
            ⟨fun b i => fsub (st.x b i)
                (c.msolve (c.jacX st.x) (c.Gfun st.x c.p c.p2 c.t) b i),
             c.Gfun
               (fun b i => fsub (st.x b i)
                 (c.msolve (c.jacX st.x) (c.Gfun st.x c.p c.p2 c.t) b i))
               c.p c.p2 c.t,
             fun b => vnormInf
               (c.Gfun
                 (fun b2 i2 => fsub (st.x b2 i2)
                   (c.msolve (c.jacX st.x) (c.Gfun st.x c.p c.p2 c.t) b2 i2))
                 c.p c.p2 c.t b),
             st.resnorm, c.jacX st.x⟩)
      else
        Except.ok
          ⟨fun b i => fsub (st.x b i) (c.msolve st.dGdx st.gg b i),
           c.Gfun (fun b i => fsub (st.x b i) (c.msolve st.dGdx st.gg b i))
             c.p c.p2 c.t,
           fun b => vnormInf
             (c.Gfun
               (fun b2 i2 => fsub (st.x b2 i2) (c.msolve st.dGdx st.gg b2 i2))
               c.p c.p2 c.t b),
           st.resnorm, st.dGdx⟩) := by
  unfold newtonBody
  rfl

/-- The iteration counter grows by at most the supplied fuel. -/
theorem newtonLoopAux_iters_le {B n mp : ℕ} (c : NewtonCtx B n mp) :
    ∀ (fuel : ℕ) (st : NewtonLoopState B n) (i : ℕ),
      loopIters (newtonLoopAux c fuel st i) ≤ i + fuel := by
  intro fuel
  induction fuel with
  | zero => intro st i; simp [newtonLoopAux, loopIters]
  | succ f ih =>
    intro st i
    unfold newtonLoopAux
    split
    · cases hb : newtonBody c st with
      | error e => simp [loopIters]
      | ok st' =>
        exact le_trans (ih st' (i + 1)) (by omega)
    · simp only [loopIters]
      omega

/-- `newtonLoop` satisfies the one-step unfolding of the source's `while`
loop: it runs the body and continues exactly when the guard holds. -/
theorem newtonLoop_unfold_eq {B n mp : ℕ} (c : NewtonCtx B n mp)
    (st : NewtonLoopState B n) (i : ℕ) :
    newtonLoop c st i =
      if newtonGuard st i then
        (match newtonBody c st with
         | Except.error e => Except.error e
         | Except.ok st' => newtonLoop c st' (i + 1))
      else
        Except.ok (st, i) := by
  unfold newtonLoop
  by_cases h : newtonGuard st i = true
  · have hi : i ≤ max_iter := by
      have h' := h
      simp only [newtonGuard, Bool.and_eq_true, decide_eq_true_eq] at h'
      exact h'.2
    have hfuel : max_iter + 1 - i = (max_iter + 1 - (i + 1)) + 1 := by omega
    rw [hfuel]
    simp only [newtonLoopAux, h, if_true]
  · have hb : newtonGuard st i = false := by
      simpa using h
    cases hf : max_iter + 1 - i with
    | zero => simp [newtonLoopAux, hb]
    | succ f => simp [newtonLoopAux, hb]

/-- C4: The Newton iteration always terminates — the loop runs at most
`max_iter + 1 = 4` body executions from its start at `i = 0` — and its loop
condition is global over the batch: by the unfolding equation it continues
exactly while `torch.max(resnorm) > gtol` AND the counter has not passed the
cap, where the guard takes the maximum of the residual infinity-norms over
ALL batch elements (no per-element early exit: the body, `newtonBody`,
rebuilds `x`, `gg` and `resnorm` for every batch element, including those
whose own residual norm is already below tolerance). -/
theorem newton_loop_global_termination {B n mp : ℕ} (c : NewtonCtx B n mp) :
    (∀ st : NewtonLoopState B n, loopIters (newtonLoop c st 0) ≤ max_iter + 1) ∧
    (∀ (st : NewtonLoopState B n) (i : ℕ),
      newtonLoop c st i =
        if newtonGuard st i then
          (match newtonBody c st with
           | Except.error e => Except.error e
           | Except.ok st' => newtonLoop c st' (i + 1))
        else
          Except.ok (st, i)) ∧
    (∀ (st : NewtonLoopState B n) (i : ℕ),
      newtonGuard st i = (fgt (bmax st.resnorm) gtol && decide (i ≤ max_iter))) := by
  refine ⟨?_, ?_, ?_⟩
  · intro st
    have h := newtonLoopAux_iters_le c (max_iter + 1) st 0
    simpa [newtonLoop] using h
  · intro st i
    exact newtonLoop_unfold_eq c st i
  · intro st i
    rfl

/-- A successful Newton body execution either carries the previous `dGdx`
unchanged or stores a freshly computed Jacobian that passed the NaN/Inf
check. -/
theorem newtonBody_dGdx_cases {B n mp : ℕ} (c : NewtonCtx B n mp)
    (st st' : NewtonLoopState B n) (hok : newtonBody c st = Except.ok st') :
    st'.dGdx = st.dGdx ∨
      (st'.dGdx = c.jacX st.x ∧ hasNonFinite (c.jacX st.x) = false) := by
  unfold newtonBody at hok
  simp only [] at hok
  split at hok
  · split at hok
    · exact absurd hok (by simp)
    · right
      refine ⟨?_, by simpa using (by assumption : ¬hasNonFinite (c.jacX st.x) = true)⟩
      cases hok
      rfl
  · left
    cases hok
    rfl

/-- Along any successful run of the Newton loop, finiteness of the stored
state Jacobian is preserved (every store of a fresh Jacobian is guarded by
the NaN/Inf check). -/
theorem newtonLoopAux_dGdx_finite {B n mp : ℕ} (c : NewtonCtx B n mp) :
    ∀ (fuel : ℕ) (st : NewtonLoopState B n) (i : ℕ)
      (st' : NewtonLoopState B n) (k : ℕ),
      newtonLoopAux c fuel st i = Except.ok (st', k) →
      hasNonFinite st.dGdx = false →
      hasNonFinite st'.dGdx = false := by
  intro fuel
  induction fuel with
  | zero =>
    intro st i st' k h hf
    simp only [newtonLoopAux, Except.ok.injEq, Prod.mk.injEq] at h
    rw [← h.1]
    exact hf
  | succ f ih =>
    intro st i st' k h hf
    unfold newtonLoopAux at h
    split at h
    · cases hb : newtonBody c st with
      | error e =>
        rw [hb] at h
        exact absurd h (by simp)
      | ok st1 =>
        rw [hb] at h
        have h1 : hasNonFinite st1.dGdx = false := by
          rcases newtonBody_dGdx_cases c st st1 hb with hc | hc
          · rw [hc]; exact hf
          · rw [hc.1]; exact hc.2
        exact ih st1 (i + 1) st' k h h1
    · simp only [Except.ok.injEq, Prod.mk.injEq] at h
      rw [← h.1]
      exact hf

/-- C5 amended: every store of the state Jacobian `dGdx` (initial and
in-loop) is guarded by the NaN/Inf check, and in the two-parameter-group
branch (`dGdp2` saved, i.e. `p2` present — the `nsteps_pDyn` pathway) the
parameter Jacobians are also checked, so a successful `NewtonSolve.forward`
never saves a non-finite `dGdx`, nor non-finite `dGdp`/`dGdp2` when a second
group is present; HOWEVER, in the single-parameter-group branch
(`p2 is None`) the parameter Jacobian `dGdp` is saved without any
finiteness check (see the counterexample), so the original claim's "never
silently tolerated in any branch" holds only outside that branch. -/
theorem newtonSolve_forward_saved_jacobian_checks {B n mp : ℕ}
    (c : NewtonCtx B n mp) (x0 : Option (BVec B n)) (batchP evalFlag : Bool)
    (r : NewtonResult B n mp) (s : NewtonSaved B n mp)
    (hok : NewtonSolve.forward c x0 batchP evalFlag = Except.ok r)
    (hs : r.saved = some s) :
    hasNonFinite s.dGdx = false ∧
    (∀ d2, s.dGdp2 = some d2 →
      hasNonFinite s.dGdp = false ∧ hasNonFinite d2 = false) := by
  unfold NewtonSolve.forward at hok
  simp only [] at hok
  split at hok
  · exact absurd hok (by simp)
  · rename_i x0v hx0
    split at hok
    · exact absurd hok (by simp)
    · rename_i hj0
      cases hl : newtonLoop c
          ⟨x0v, c.Gfun x0v c.p c.p2 c.t,
           fun b => vnormInf (c.Gfun x0v c.p c.p2 c.t b),
           fun b => fmul (some 100) (vnormInf (c.Gfun x0v c.p c.p2 c.t b)),
           c.jacX x0v⟩ 0 with
      | error e =>
        rw [hl] at hok
        exact absurd hok (by simp)
      | ok sti =>
        obtain ⟨st, i⟩ := sti
        rw [hl] at hok
        simp only [] at hok
        have hstfin : hasNonFinite st.dGdx = false :=
          newtonLoopAux_dGdx_finite c (max_iter + 1 - 0) _ 0 st i hl
            (by simpa using hj0)
        split at hok
        · -- evalFlag = true: nothing saved, so `hs` is contradictory
          cases hok
          simp at hs
        · split at hok
          · -- batchP = true
            cases hp2 : c.p2 with
            | none =>
              rw [hp2] at hok
              simp only [] at hok
              cases hok
              simp only [Option.some.injEq] at hs
              subst hs
              refine ⟨hstfin, ?_⟩
              intro d2 hd2
              simp at hd2
            | some pv =>
              rw [hp2] at hok
              simp only [] at hok
              split at hok
              · exact absurd hok (by simp)
              · rename_i hchk
                cases hok
                simp only [Option.some.injEq] at hs
                subst hs
                simp only [Bool.or_eq_true, not_or, Bool.not_eq_true] at hchk
                refine ⟨hstfin, ?_⟩
                intro d2 hd2
                simp only [Option.some.injEq] at hd2
                subst hd2
                exact ⟨hchk.1, hchk.2⟩
          · -- batchP = false: unbound local `dGdp`
            exact absurd hok (by simp)

/-- When the guard fails at entry the Newton loop returns its input state. -/
theorem newtonLoop_exit {B n mp : ℕ} (c : NewtonCtx B n mp)
    (st : NewtonLoopState B n) (i : ℕ) (h : newtonGuard st i = false) :
    newtonLoop c st i = Except.ok (st, i) := by
  rw [newtonLoop_unfold_eq, h]
  simp

/-- C5, counterexample: a concrete single-parameter-group run
(`p2 is None`) in which the computed parameter Jacobian `dGdp` is entirely
non-finite, yet `NewtonSolve.forward` returns successfully and saves it —
no numerical-failure error is raised, refuting "a non-finite Jacobian is
never silently tolerated in any branch". -/
theorem newtonSolve_forward_nonfinite_dGdp_counterexample :
    NewtonSolve.forward newtonCtxNaN (some (fun _ _ => some 0)) true false =
      Except.ok newtonResNaN ∧
    newtonResNaN.saved = some newtonSavedNaN ∧
    hasNonFinite newtonSavedNaN.dGdp = true := by
  refine ⟨?_, rfl, by simp [newtonSavedNaN, hasNonFinite]⟩
  unfold NewtonSolve.forward newtonCtxNaN
  norm_num [newtonLoop, newtonLoopAux, newtonGuard, max_iter, vnormInf, bmax,
    List.finRange, fmax, fabs, fgt, gtol, hasNonFinite, newtonResNaN,
    newtonSavedNaN, List.foldr]
  exact fun h => absurd h (by simp)

/-- Witness for the amended C5 theorem: a concrete two-parameter-group run
that completes and whose saved Jacobians are all finite. -/
theorem newtonSolve_forward_saved_jacobian_checks_witness :
    NewtonSolve.forward newtonCtxW none true false = Except.ok newtonResW ∧
    newtonResW.saved = some newtonSavedW ∧
    (hasNonFinite newtonSavedW.dGdx = false ∧
     (∀ d2, newtonSavedW.dGdp2 = some d2 →
       hasNonFinite newtonSavedW.dGdp = false ∧ hasNonFinite d2 = false)) := by
  have hok : NewtonSolve.forward newtonCtxW none true false =
      Except.ok newtonResW := by
    unfold NewtonSolve.forward newtonCtxW
    norm_num [newtonLoop, newtonLoopAux, newtonGuard, max_iter, vnormInf, bmax,
      List.finRange, fmax, fabs, fgt, gtol, hasNonFinite, newtonResW,
      newtonSavedW, List.foldr]
    simp
  exact ⟨hok, rfl,
    newtonSolve_forward_saved_jacobian_checks newtonCtxW none true false
      newtonResW newtonSavedW hok rfl⟩

/-- Snow-phase invariants: with a non-negative holding fraction and
non-negative inputs, the updated snowpack and meltwater and the released
water are non-negative. -/
theorem hbvSnow_props (pr : HBVCapParams) (T SNOW SP MW : ℚ)
    (hCWH : 0 ≤ pr.parCWH) (hSNOW : 0 ≤ SNOW) (hSP : 0 ≤ SP) (hMW : 0 ≤ MW) :
    0 ≤ (hbvSnow pr T SNOW SP MW).1 ∧ 0 ≤ (hbvSnow pr T SNOW SP MW).2.1 ∧
    0 ≤ (hbvSnow pr T SNOW SP MW).2.2 := by
  unfold hbvSnow
  simp only []
  generalize hSP1e : SP + SNOW = SP1
  have hSP1 : 0 ≤ SP1 := hSP1e ▸ by linarith
  generalize hMelte : min (max (pr.parCFMAX * (T - pr.parTT)) 0) SP1 = melt
  have hmelt0 : 0 ≤ melt := hMelte ▸ le_min (le_max_right _ _) hSP1
  have hmelt1 : melt ≤ SP1 := hMelte ▸ min_le_right _ _
  generalize hMW1e : MW + melt = MW1
  have hMW1 : 0 ≤ MW1 := hMW1e ▸ by linarith
  generalize hRefre :
    min (max (pr.parCFR * pr.parCFMAX * (pr.parTT - T)) 0) MW1 = refreezing
  have hrefr0 : 0 ≤ refreezing := hRefre ▸ le_min (le_max_right _ _) hMW1
  have hrefr1 : refreezing ≤ MW1 := hRefre ▸ min_le_right _ _
  have hSP3 : 0 ≤ SP1 - melt + refreezing := by linarith
  have hMW2 : 0 ≤ MW1 - refreezing := by linarith
  refine ⟨hSP3, ?_, le_max_right _ _⟩
  have hc : 0 ≤ pr.parCWH * (SP1 - melt + refreezing) :=
    mul_nonneg hCWH hSP3
  rcases le_total (MW1 - refreezing - pr.parCWH * (SP1 - melt + refreezing)) 0
    with h | h
  · rw [max_eq_right h]
    linarith
  · rw [max_eq_left h]
    linarith

/-- Soil-phase invariants: the recharge and excess fluxes are non-negative
and the updated soil moisture is at least the floor. -/
theorem hbvSoil_props (pw : ℚ → ℚ → ℚ) (nz : ℚ) (pr : HBVCapParams)
    (RAIN tosoil PET SM : ℚ) (hR : 0 ≤ RAIN) (hts : 0 ≤ tosoil) :
    nz ≤ (hbvSoil pw nz pr RAIN tosoil PET SM).1 ∧
    0 ≤ (hbvSoil pw nz pr RAIN tosoil PET SM).2.1 ∧
    0 ≤ (hbvSoil pw nz pr RAIN tosoil PET SM).2.2.1 := by
  unfold hbvSoil
  simp only []
  refine ⟨le_max_right _ _, ?_, le_max_right _ _⟩
  have hw : 0 ≤ min (max (pw (SM / pr.parFC) pr.parBETA) 0) 1 :=
    le_min (le_max_right _ _) zero_le_one
  exact mul_nonneg (by linarith) hw

/-- Capillary-phase invariants: both updated storages are at least the
floor. -/
theorem hbvCapRise_props (nz : ℚ) (pr : HBVCapParams) (SM SLZ : ℚ) :
    nz ≤ (hbvCapRise nz pr SM SLZ).1 ∧ nz ≤ (hbvCapRise nz pr SM SLZ).2.1 := by
  unfold hbvCapRise
  exact ⟨le_max_right _ _, le_max_right _ _⟩

/-- Groundwater-phase invariants: with the rate and threshold parameters in
their declared ranges and non-negative inputs, the updated upper- and
lower-zone storages are non-negative. -/
theorem hbvGW_props (pr : HBVCapParams) (recharge excess SUZ SLZ : ℚ)
    (hK0a : 0 ≤ pr.parK0) (hK0b : pr.parK0 ≤ 1)
    (hK1a : 0 ≤ pr.parK1) (hK1b : pr.parK1 ≤ 1)
    (hK2a : 0 ≤ pr.parK2) (hK2b : pr.parK2 ≤ 1)
    (hUZL : 0 ≤ pr.parUZL) (hPERC : 0 ≤ pr.parPERC)
    (hrech : 0 ≤ recharge) (hexc : 0 ≤ excess)
    (hSUZ : 0 ≤ SUZ) (hSLZ : 0 ≤ SLZ) :
    0 ≤ (hbvGW pr recharge excess SUZ SLZ).1 ∧
    0 ≤ (hbvGW pr recharge excess SUZ SLZ).2.1 := by
  unfold hbvGW
  simp only []
  generalize hSUZ1e : SUZ + recharge + excess = SUZ1
  have hSUZ1 : 0 ≤ SUZ1 := hSUZ1e ▸ by linarith
  generalize hPe : min SUZ1 pr.parPERC = PERC
  have hP0 : 0 ≤ PERC := hPe ▸ le_min hSUZ1 hPERC
  have hP1 : PERC ≤ SUZ1 := hPe ▸ min_le_left _ _
  have hSUZ2 : 0 ≤ SUZ1 - PERC := by linarith
  have hQ0max : max (SUZ1 - PERC - pr.parUZL) 0 ≤ SUZ1 - PERC := by
    rcases le_total (SUZ1 - PERC - pr.parUZL) 0 with h | h
    · rw [max_eq_right h]; linarith
    · rw [max_eq_left h]; linarith
  have hQ0max0 : 0 ≤ max (SUZ1 - PERC - pr.parUZL) 0 := le_max_right _ _
  have hQ00 : 0 ≤ pr.parK0 * max (SUZ1 - PERC - pr.parUZL) 0 :=
    mul_nonneg hK0a hQ0max0
  have hQ01 : pr.parK0 * max (SUZ1 - PERC - pr.parUZL) 0 ≤ SUZ1 - PERC := by
    calc pr.parK0 * max (SUZ1 - PERC - pr.parUZL) 0 ≤
        1 * max (SUZ1 - PERC - pr.parUZL) 0 :=
          mul_le_mul_of_nonneg_right hK0b hQ0max0
      _ = max (SUZ1 - PERC - pr.parUZL) 0 := one_mul _
      _ ≤ SUZ1 - PERC := hQ0max
  generalize hQ0e : pr.parK0 * max (SUZ1 - PERC - pr.parUZL) 0 = Q0 at hQ00 hQ01
  have hSUZ3 : 0 ≤ SUZ1 - PERC - Q0 := by linarith
  constructor
  · have := mul_nonneg (by linarith : (0:ℚ) ≤ 1 - pr.parK1) hSUZ3
    nlinarith
  · have hSLZ2 : 0 ≤ SLZ + PERC := by linarith
    have := mul_nonneg (by linarith : (0:ℚ) ≤ 1 - pr.parK2) hSLZ2
    nlinarith

/-- C7 amended: over one explicit step with non-negative precipitation and
potential evapotranspiration, parameters inside their declared bounds, a
non-negative floor and all storages starting at or above the floor, the
soil-moisture storage SM ends at or above the floor (it is clamped to the
floor), and the other four storages (SNOWPACK, MELTWATER, SUZ, SLZ) end
non-negative — but NOT necessarily at or above the floor (see the
counterexample: only SM, and mid-step SLZ, are ever clamped to
`self.nearzero`; the others are merely kept non-negative by the flux
limiters). -/
theorem hbvCapStep_storage_floors (pw : ℚ → ℚ → ℚ) (nz : ℚ)
    (pr : HBVCapParams) (P T PET : ℚ) (s : HBVStorages)
    (hb : HBVCapParamsInBounds pr) (hnz : 0 ≤ nz) (hP : 0 ≤ P)
    (hPET : 0 ≤ PET) (h1 : nz ≤ s.SNOWPACK) (h2 : nz ≤ s.MELTWATER)
    (h3 : nz ≤ s.SM) (h4 : nz ≤ s.SUZ) (h5 : nz ≤ s.SLZ) :
    nz ≤ (hbvCapStep pw nz pr P T PET s).1.SM ∧
    0 ≤ (hbvCapStep pw nz pr P T PET s).1.SNOWPACK ∧
    0 ≤ (hbvCapStep pw nz pr P T PET s).1.MELTWATER ∧
    0 ≤ (hbvCapStep pw nz pr P T PET s).1.SUZ ∧
    0 ≤ (hbvCapStep pw nz pr P T PET s).1.SLZ := by
  obtain ⟨hBETA1, hBETA2, hFC1, hFC2, hK0a, hK0b, hK1a, hK1b, hK2a, hK2b,
    hLP1, hLP2, hPERCa, hPERCb, hUZLa, hUZLb, hTTa, hTTb, hCFMAXa, hCFMAXb,
    hCFRa, hCFRb, hCWHa, hCWHb, hBEa, hBEb, hCa, hCb⟩ := hb
  have hK0b' : pr.parK0 ≤ 1 := by linarith
  have hK1b' : pr.parK1 ≤ 1 := by linarith
  have hK2b' : pr.parK2 ≤ 1 := by linarith
  have hRAIN : 0 ≤ P * (if pr.parTT ≤ T then (1:ℚ) else 0) := by
    rcases le_or_lt pr.parTT T with h | h
    · rw [if_pos h]; linarith
    · rw [if_neg (not_le.mpr h)]; simp
  have hSNOW : 0 ≤ P * (if T < pr.parTT then (1:ℚ) else 0) := by
    rcases lt_or_le T pr.parTT with h | h
    · rw [if_pos h]; linarith
    · rw [if_neg (not_lt.mpr h)]; simp
  have hsnow := hbvSnow_props pr T (P * (if T < pr.parTT then (1:ℚ) else 0))
    s.SNOWPACK s.MELTWATER hCWHa hSNOW (by linarith) (by linarith)
  have hsoil := hbvSoil_props pw nz pr
    (P * (if pr.parTT ≤ T then (1:ℚ) else 0))
    (hbvSnow pr T (P * (if T < pr.parTT then (1:ℚ) else 0))
      s.SNOWPACK s.MELTWATER).2.2
    PET s.SM hRAIN hsnow.2.2
  have hcap := hbvCapRise_props nz pr
    (hbvSoil pw nz pr (P * (if pr.parTT ≤ T then (1:ℚ) else 0))
      (hbvSnow pr T (P * (if T < pr.parTT then (1:ℚ) else 0))
        s.SNOWPACK s.MELTWATER).2.2
      PET s.SM).1
    s.SLZ
  have hgw := hbvGW_props pr
    (hbvSoil pw nz pr (P * (if pr.parTT ≤ T then (1:ℚ) else 0))
      (hbvSnow pr T (P * (if T < pr.parTT then (1:ℚ) else 0))
        s.SNOWPACK s.MELTWATER).2.2
      PET s.SM).2.1
    (hbvSoil pw nz pr (P * (if pr.parTT ≤ T then (1:ℚ) else 0))
      (hbvSnow pr T (P * (if T < pr.parTT then (1:ℚ) else 0))
        s.SNOWPACK s.MELTWATER).2.2
      PET s.SM).2.2.1
    s.SUZ
    (hbvCapRise nz pr
      (hbvSoil pw nz pr (P * (if pr.parTT ≤ T then (1:ℚ) else 0))
        (hbvSnow pr T (P * (if T < pr.parTT then (1:ℚ) else 0))
          s.SNOWPACK s.MELTWATER).2.2
        PET s.SM).1
      s.SLZ).2.1
    (by linarith) hK0b' (by linarith) hK1b' (by linarith) hK2b'
    hUZLa hPERCa hsoil.2.1 hsoil.2.2
    (by linarith) (le_trans hnz hcap.2)
  unfold hbvCapStep
  simp only []
  exact ⟨hcap.1, hsnow.1, hsnow.2.1, hgw.1, hgw.2⟩

/-- C7, counterexample: with parameters inside their declared bounds
(`TT = 0`, `CFMAX = 1`), zero precipitation and PET, warm air `T = 10`, and
all five storages exactly at the floor `1e-5`, the whole snowpack melts:
`SNOWPACK` after the step is `0 < 1e-5`, so not every storage remains at or
above the configured floor (only `SM` is clamped to it). -/
theorem hbvCapStep_floor_counterexample :
    HBVCapParamsInBounds prCE ∧ (0:ℚ) ≤ 0 ∧
    (1/100000 : ℚ) ≤ sCE.SNOWPACK ∧ (1/100000 : ℚ) ≤ sCE.MELTWATER ∧
    (1/100000 : ℚ) ≤ sCE.SM ∧ (1/100000 : ℚ) ≤ sCE.SUZ ∧
    (1/100000 : ℚ) ≤ sCE.SLZ ∧
    (hbvCapStep pwCE (1/100000) prCE 0 10 0 sCE).1.SNOWPACK < 1/100000 := by
  refine ⟨?_, le_refl _, ?_, ?_, ?_, ?_, ?_, ?_⟩
  · norm_num [HBVCapParamsInBounds, prCE]
  · norm_num [sCE]
  · norm_num [sCE]
  · norm_num [sCE]
  · norm_num [sCE]
  · norm_num [sCE]
  · norm_num [hbvCapStep, hbvSnow, hbvSoil, hbvCapRise, hbvGW, prCE, sCE,
      pwCE, min_def, max_def]

/-- Witness for the amended C7 theorem at a concrete input (rain `P = 1`,
`T = 1`, `PET = 1`, storages at the floor). -/
theorem hbvCapStep_storage_floors_witness :
    (1/100000 : ℚ) ≤ (hbvCapStep pwCE (1/100000) prCE 1 1 1 sCE).1.SM ∧
    0 ≤ (hbvCapStep pwCE (1/100000) prCE 1 1 1 sCE).1.SNOWPACK ∧
    0 ≤ (hbvCapStep pwCE (1/100000) prCE 1 1 1 sCE).1.MELTWATER ∧
    0 ≤ (hbvCapStep pwCE (1/100000) prCE 1 1 1 sCE).1.SUZ ∧
    0 ≤ (hbvCapStep pwCE (1/100000) prCE 1 1 1 sCE).1.SLZ :=
  hbvCapStep_storage_floors pwCE (1/100000) prCE 1 1 1 sCE
    (by norm_num [HBVCapParamsInBounds, prCE]) (by norm_num) (by norm_num)
    (by norm_num) (by norm_num [sCE]) (by norm_num [sCE]) (by norm_num [sCE])
    (by norm_num [sCE]) (by norm_num [sCE])

/-- C9: With routing disabled, `HBV_adj.unpack_parameters` always fails: the
local `routing_params` is assigned only under the routing branch but is read
unconditionally when the returned parameter dictionary is built
(`UnboundLocalError`), for every input; `HBV_adj.forward` calls
`unpack_parameters` unconditionally before anything else uses the
parameters (hbv_adj.py line 196), so `HBV_adj` can only be evaluated with
routing enabled. -/
theorem hbv_adj_unpack_parameters_routing_off_error (σ : ℚ → ℚ)
    (nmul phy_param_count n_steps n_grid : ℕ)
    (parameters : ℕ → ℕ → ℕ → ℚ) :
    HBV_adj.unpack_parameters σ false nmul phy_param_count n_steps n_grid
        parameters =
      Except.error
        "UnboundLocalError: local variable routing_params referenced before assignment" :=
  rfl

/-- C10: A non-warm-up (`initialize = False`) call of `HBVCapillary.forward`
with routing disabled always raises: with routing off the routed components
are `None`, yet the baseflow-index computation applies `torch.sum` to
`Q2_rout` before the output dictionary is returned (`TypeError`), for every
input, oracle, forcing and parameter array. -/
theorem hbvCapillary_forward_routing_off_error (pw σ : ℚ → ℚ → ℚ)
    (bern : ℚ → ℕ → ℕ → ℚ)
    (UHg : (ℕ → ℕ → ℕ → ℚ) → (ℕ → ℕ → ℕ → ℚ) → ℕ → (ℕ → ℕ → ℕ → ℚ))
    (UHc : (ℕ → ℕ → ℕ → ℚ) → (ℕ → ℕ → ℕ → ℚ) → (ℕ → ℕ → ℕ → ℚ))
    (wu : ℕ) (wus : Bool) (pc si : ℕ) (dyp : List String) (dd nz : ℚ)
    (cr : Bool) (nm ns ng nrows : ℕ) (x : ℕ → ℕ → ℕ → ℚ)
    (muwts : Option (ℕ → ℚ)) (parameters : ℕ → ℕ → ℕ → ℚ) :
    HBVCapillary.forward pw σ bern UHg UHc
        ⟨wu, wus, pc, si, dyp, dd, false, cr, nz, nm⟩ false ns ng nrows x
        muwts parameters =
      Except.error
        "TypeError: sum(): argument input (position 1) must be Tensor, not NoneType" :=
  rfl

/-- C8, counterexample: in the `HBV_adj.forward` pathway the run-period
slice `phy_params[warm_up:]` is handed to `make_phy_parameters`, whose
static value is the slice's LAST row — i.e. the last time step of the whole
simulation — not the last warm-up step.  Concretely with total length 3,
`warm_up = 1` and a trajectory equal to its time index, a fully masked
(drmask = 1) dynamic parameter is pinned at every step to the value of
global step 2, which differs from the value at the last warm-up step
(global step 0). -/
theorem make_phy_parameters_static_step_counterexample :
    HBV_adj.make_phy_parameters (fun _ _ _ => 1) (1/2) 2 (adjRunSlice 1 ppCE)
        ["parBETA"] ["parBETA"] 0 0 0 = ppCE 2 0 0 ∧
    ppCE 2 0 0 ≠ ppCE 0 0 0 := by
  constructor
  · norm_num [HBV_adj.make_phy_parameters, adjRunSlice, ppCE]
  · norm_num [ppCE]

/-- C8, amended: for each parameter flagged dynamic, a single Bernoulli draw
per basin (`bern dy_drop i g`, modelled as an oracle for
`torch.bernoulli(ones * dy_drop)`) is reused unchanged across all time
steps (the mask does not depend on `t`); where the mask is 1 the parameter
trajectory for that basin equals a static value broadcast over all time
steps, and where it is 0 it equals the per-step dynamic value.  The static
value is: in `HBV_adj.make_phy_parameters`, the value at the LAST time step
of the slice it is given (in `HBV_adj.forward`, the last simulation step,
not the last warm-up step — see the counterexample); in
`HBVCapillary.unpack_parameters`, the value at the configured
`static_idx` step, subsequently rescaled into the declared bounds. -/
theorem dynamic_mask_characterization :
    (∀ (bern : ℚ → ℕ → ℕ → ℚ) (dd : ℚ) (ns : ℕ) (phy : ℕ → ℕ → ℕ → ℚ)
       (names dys : List String) (i : ℕ) (nm : String) (t g : ℕ),
       dys ≠ [] → names.get? i = some nm → nm ∈ dys →
       (bern dd i g = 0 ∨ bern dd i g = 1) →
       HBV_adj.make_phy_parameters bern dd ns phy names dys t g i =
         (if bern dd i g = 1 then phy (ns - 1) g i else phy t g i)) ∧
    (∀ (σ : ℚ → ℚ) (bern : ℚ → ℕ → ℕ → ℚ) (cfg : CapCfg) (nrows : ℕ)
       (parameters : ℕ → ℕ → ℕ → ℚ) (nm : String) (i t g m : ℕ),
       capPhyNames.indexOf? nm = some i → nm ∈ cfg.dy_params →
       (bern cfg.dy_drop i g = 0 ∨ bern cfg.dy_drop i g = 1) →
       HBVCapillary.unpack_parameters σ bern cfg nrows parameters nm t g m =
         change_param_range
           (if bern cfg.dy_drop i g = 1 then
             σ (parameters cfg.static_idx g (i * cfg.nmul + m))
           else
             σ (parameters t g (i * cfg.nmul + m)))
           (capBounds nm).1 (capBounds nm).2) := by
  constructor
  · intro bern dd ns phy names dys i nm t g hne hget hmem hmask
    unfold HBV_adj.make_phy_parameters
    simp only []
    have hie : dys.isEmpty = false := by
      cases dys with
      | nil => exact absurd rfl hne
      | cons a l => rfl
    rw [hie]
    simp only [Bool.false_eq_true, if_false]
    rw [hget]
    simp only []
    rw [if_pos hmem]
    rcases hmask with h | h
    · rw [h, if_neg (by norm_num)]
      ring
    · rw [h, if_pos rfl]
      ring
  · intro σ bern cfg nrows parameters nm i t g m hidx hmem hmask
    unfold HBVCapillary.unpack_parameters
    simp only []
    rw [hidx]
    simp only []
    rw [if_pos hmem]
    unfold change_param_range
    rcases hmask with h | h
    · rw [h, if_neg (by norm_num)]
      ring
    · rw [h, if_pos rfl]
      ring

/-- Witness for the amended C8 theorem at concrete instances of both
maskings (drmask = 1, so the run is pinned to the static value). -/
theorem dynamic_mask_characterization_witness :
    (HBV_adj.make_phy_parameters (fun _ _ _ => 1) (1/2) 2 (adjRunSlice 1 ppCE)
        ["parBETA"] ["parBETA"] 0 0 0 =
      if (1 : ℚ) = 1 then adjRunSlice 1 ppCE (2 - 1) 0 0
      else adjRunSlice 1 ppCE 0 0 0) ∧
    (HBVCapillary.unpack_parameters (fun q => q) (fun _ _ _ => 1) cfgC8 5 ppCE
        "parBETA" 0 0 0 =
      change_param_range
        (if (1 : ℚ) = 1 then ppCE cfgC8.static_idx 0 (0 * cfgC8.nmul + 0)
         else ppCE 0 0 (0 * cfgC8.nmul + 0))
        (capBounds "parBETA").1 (capBounds "parBETA").2) :=
  ⟨dynamic_mask_characterization.1 (fun _ _ _ => 1) (1/2) 2
      (adjRunSlice 1 ppCE) ["parBETA"] ["parBETA"] 0 "parBETA" 0 0
      (by simp) rfl (by simp) (Or.inr rfl),
   dynamic_mask_characterization.2 (fun q => q) (fun _ _ _ => 1) cfgC8 5 ppCE
      "parBETA" 0 0 0 0 rfl (by simp [cfgC8]) (Or.inr rfl)⟩
